import Mathlib

/-!
Verification of the drni simulator driver (src/drni/drni.cpp) against its
natural-language specification.  The repository snapshot contains the
simulation driver, its scripted test scenarios and the compareLists helper;
the protocol classes (AggPort, Aggregator, DistributedRelay, Mac, Device)
are declared in headers that are not part of the snapshot, so definitions
below that concern them are modelled from the spec and say so in their doc
comments.  Everything else is translated directly from drni.cpp.
-/

namespace Drni

/-- Non-decreasing sort, modelling the two std list sort calls at the start
of compareLists (drni.cpp lines 2656-2657). -/
def sortList (l : List Nat) : List Nat := List.insertionSort (· ≤ ·) l

/-- std list merge of two sorted lists as invoked at drni.cpp lines 2677-2678:
stable merge of the second list into the first, taking from the first list
when heads are equal. -/
def listMerge : List Nat → List Nat → List Nat
  | [], ys => ys
  | x :: xs, [] => x :: xs
  | x :: xs, y :: ys =>
    if y < x then y :: listMerge (x :: xs) ys
    else x :: listMerge xs (y :: ys)
termination_by xs ys => xs.length + ys.length
decreasing_by
  all_goals simp only [List.length_cons]
  all_goals omega

/-- The while loop of compareLists (drni.cpp lines 2659-2676).  Returns the
elements pushed onto the difference list together with whatever remains of
the two (already sorted) input lists when the loop exits; at least one of
the two remainders is empty. -/
def cmpLoop : List Nat → List Nat → List Nat × List Nat × List Nat
  | [], bs => ([], [], bs)
  | a :: as, [] => ([], a :: as, [])
  | a :: as, b :: bs =>
    if a = b then cmpLoop as bs
    else if a < b then
      let r := cmpLoop as (b :: bs)
      (a :: r.1, r.2.1, r.2.2)
    else
      let r := cmpLoop (a :: as) bs
      (b :: r.1, r.2.1, r.2.2)
termination_by as bs => as.length + bs.length
decreasing_by
  all_goals simp only [List.length_cons]
  all_goals omega

/-- compareLists (drni.cpp lines 2653-2681).  The arguments are received by
value, sorted, consumed by the loop, and the remainders are merged into the
difference list.  In this pure embedding by-value passing is implicit: the
function has no way to alter its caller's lists. -/
def compareLists (listA listB : List Nat) : List Nat :=
  let r := cmpLoop (sortList listA) (sortList listB)
  listMerge (listMerge r.1 r.2.1) r.2.2

/-- Absolute difference of two counts, written with truncated subtraction. -/
def countDiff (a b : Nat) : Nat := (a - b) + (b - a)

/-- Events observable during one iteration of the simulation driver loop
(drni.cpp lines 377-391 in basicLagTest, lines 1205-1221 in distributionTest,
and the identical loop of every other scenario): the per-device timerTick and
run calls, the per-device transmit calls, and the increment of the global
tick counter SimLog Time. -/
inductive DriverEvent where
  | timerTick (dev : Nat)
  | run (dev : Nat) (singleStep : Bool)
  | transmit (dev : Nat)
  | timeIncrement
deriving DecidableEq

/-- Call sequence of the first per-device phase of a driver tick (drni.cpp
lines 1206-1210): for each device in order, timerTick then run true. -/
def runPhaseTrace : Nat → List DriverEvent
  | 0 => []
  | n + 1 => runPhaseTrace n ++ [DriverEvent.timerTick n, DriverEvent.run n true]

/-- Call sequence of the second per-device phase (drni.cpp lines 1213-1216):
transmit on each device in order. -/
def transmitPhaseTrace : Nat → List DriverEvent
  | 0 => []
  | n + 1 => transmitPhaseTrace n ++ [DriverEvent.transmit n]

/-- Call sequence of one full iteration of the driver loop over n devices
(drni.cpp lines 1205-1220): all devices tick and run, then all devices
transmit, then SimLog Time is incremented once. -/
def driverTickTrace (n : Nat) : List DriverEvent :=
  runPhaseTrace n ++ transmitPhaseTrace n ++ [DriverEvent.timeIncrement]

/-- Abstract per-device operations invoked by the driver loop; the concrete
Device methods live in headers outside the repository snapshot, so the loop
is verified for arbitrary implementations of the three methods. -/
structure DriverOps (σ : Type) where
  timerTick : σ → σ
  run : Bool → σ → σ
  transmit : σ → σ

/-- State effect of one driver-loop iteration (drni.cpp lines 1205-1220) on
the list of device states and on the global time counter. -/
def driverTick {σ : Type} (ops : DriverOps σ) (devs : List σ) (time : Nat) :
    List σ × Nat :=
  let devs1 := devs.map (fun d => ops.run true (ops.timerTick d))
  let devs2 := devs1.map ops.transmit
  (devs2, time + 1)

/-- Modelled from the spec: the DEFAULT conversation-to-link spread of the
Aggregator (spec 4.4; the Aggregator class is not in the repository
snapshot).  Given K active links with link numbers L1 < ... < LK, the spread
assigns conversation id c to the link at 1-based position (c mod K) + 1 of
the link numbers in increasing order. -/
def defaultSpread (links : List Nat) (convId : Nat) : Nat :=
  let ordered := List.insertionSort (· ≤ ·) links
  ordered.getD (convId % ordered.length) 0

/-- Modelled from the spec: the C_VID port algorithm (spec 4.4) takes the
conversation id from the customer VLAN id of the frame, 0 if untagged. -/
def cvidConvId (tag : Option Nat) : Nat := tag.getD 0

/-- Tag sequence of the nine test frames generated by send9Frames (drni.cpp
lines 246-254): one untagged frame, then C-VLAN-tagged frames vid 0..7. -/
def send9FramesTags : List (Option Nat) :=
  none :: (List.range 8).map some

/-- Conversation ids of the nine send9Frames frames under the C_VID port
algorithm configured on the Bridge 0 Aggregators at start+500 of
distributionTest (drni.cpp lines 1133-1142). -/
def send9FramesConvIds : List Nat := send9FramesTags.map cvidConvId

/-- Link-number sequence asserted for the Bridge 0 to Bridge 2 LAG by
scenario S4 of the spec and by the drni.cpp comment at line 1154. -/
def claimedB0toB2Links : List Nat := [6, 6, 6, 5, 6, 5, 5, 6, 5]

/-- Aggregator admin key configured for each DRNI system in main (drni.cpp
lines 162 and 198): (defaultActorKey and 0xf000) or (dev * 0x100) or
(drniMacIndex + 1).  defaultActorKey is a constant from a header outside the
repository snapshot and is kept as a parameter. -/
def drniAggKey (defaultActorKey dev drniMacIndex : Nat) : Nat :=
  ((defaultActorKey &&& 0xf000) ||| (dev * 0x100)) ||| (drniMacIndex + 1)

/-- Admin DRNI key chosen by main (drni.cpp lines 167-170 and 203-206): the
explicit defaultDrniKey when the admin portal address is non-zero, otherwise
the admin key of the preferred DRNI Aggregator of that system. -/
def adminDrniKeyChoice (defaultDrniKey adminAddr aggAdminKey : Nat) : Nat :=
  if adminAddr ≠ 0 then defaultDrniKey else aggAdminKey

/-- Modelled from the spec: portal system-id arbitration performed by each
DistributedRelay over the IPP (spec 4.5 rule 1; the DistributedRelay class
is not in the repository snapshot).  The portal uses the administratively
configured portal sysId when non-zero, else the numerically lower of the two
home sysIds. -/
def portalSysId (adminId homeSelf homePeer : Nat) : Nat :=
  if adminId ≠ 0 then adminId else min homeSelf homePeer

/-- Modelled from the spec: portal key arbitration (spec 4.5 rule 1).  The
key contributed by the lowest-sysId system wins; each system contributes the
admin DRNI key that main configured on its DistributedRelay. -/
def portalKey (homeSelf homePeer keySelf keyPeer : Nat) : Nat :=
  if homeSelf ≤ homePeer then keySelf else keyPeer

/-- Mux machine states of the coupled-control variant (spec 4.1; the AggPort
state machines are not in the repository snapshot). -/
inductive MuxState where
  | Detached
  | Waiting
  | Attached
  | CollDist
deriving DecidableEq

/-- Inputs of one Mux machine evaluation: the Selection verdict for the
port, whether waitWhile has expired, and the partner sync bit. -/
structure MuxInput where
  selected : Bool
  waitWhileExpired : Bool
  partnerSync : Bool
deriving DecidableEq

/-- Modelled from the spec: one evaluation of the Mux machine (spec 4.1):
DETACHED enters WAITING when SELECTED; WAITING advances to ATTACHED once
waitWhile has expired; ATTACHED advances to COLLECTING_DISTRIBUTING when the
partner is in sync; on UNSELECTED the machine returns via ATTACHED to
DETACHED. -/
def muxStep (s : MuxState) (inp : MuxInput) : MuxState :=
  match s with
  | .Detached => if inp.selected then .Waiting else .Detached
  | .Waiting =>
    if !inp.selected then .Detached
    else if inp.waitWhileExpired then .Attached else .Waiting
  | .Attached =>
    if !inp.selected then .Detached
    else if inp.partnerSync then .CollDist else .Attached
  | .CollDist =>
    if !inp.selected || !inp.partnerSync then .Attached else .CollDist

/-- Modelled from the spec: the NTT discipline of the Mux machine (spec 4.1
says any state change sets NTT; the design note in spec 9 requires this to
cover every UNSELECTED transition, not only SELECTED to ATTACHED ones). -/
def muxNtt (s : MuxState) (inp : MuxInput) : Bool :=
  decide (muxStep s inp ≠ s)

/-- Modelled from the spec: state of one AggPort link under the
Wait-To-Restore machine after tick t (spec 4.1 WtrSM and scenario S6; the
WtrSM is not in the repository snapshot).  The pair holds whether the link
is up and the remaining WTR hold-off.  A link-up event at a tick (re)starts
the hold-off at the full WTR value, a link-down event takes the link down,
and every other tick with the link up decrements the hold-off. -/
def wtrRun (wtr : Nat) (events : List (Nat × Bool)) : Nat → Bool × Nat
  | 0 => (false, 0)
  | t + 1 =>
    let s := wtrRun wtr events t
    let s1 := if (t + 1, true) ∈ events then (true, wtr) else (s.1, s.2 - 1)
    if (t + 1, false) ∈ events then (false, s1.2) else s1

/-- A port may re-enter the aggregation at tick t when its link is up and
its Wait-To-Restore hold-off has expired. -/
def wtrEligible (wtr : Nat) (events : List (Nat × Bool)) (t : Nat) : Bool :=
  let s := wtrRun wtr events t
  s.1 && decide (s.2 = 0)

/-- First tick at or after t0 (searching bound ticks) at which the port is
again eligible, plus the LACPDU round trip the partner needs to observe it:
the tick at which the link rejoins the LAG. -/
def wtrRejoinAfter (wtr : Nat) (events : List (Nat × Bool)) (t0 rtt bound : Nat) :
    Option Nat :=
  ((List.range' t0 bound).find? (fun t => wtrEligible wtr events t)).map (· + rtt)

/-- Link events seen by Bridge 0 AggPort 1 (link 2) in waitToRestoreTest
(drni.cpp lines 1259-1301): connected at start+10, disconnected at +100,
reconnected at +115. -/
def link2WtrEvents : List (Nat × Bool) := [(10, true), (100, false), (115, true)]

/-- Link events seen by Bridge 0 AggPort 2 (link 3) in waitToRestoreTest
(drni.cpp lines 1259-1301): connected at start+10, disconnected at +100,
reconnected at +115, disconnected again at +120, reconnected at +125. -/
def link3WtrEvents : List (Nat × Bool) :=
  [(10, true), (100, false), (115, true), (120, false), (125, true)]

/-- Link events seen by Bridge 0 AggPort 1 (link 2) in the non-revertive
phase of waitToRestoreTest (drni.cpp lines 1352-1413): up at start+10 (and
through the revertive phase), down at +500, up at +515, down at +600, up at
+615. -/
def link2NrEvents : List (Nat × Bool) :=
  [(10, true), (500, false), (515, true), (600, false), (615, true)]

/-- Modelled from the spec: per-AggPort view used by the non-revertive
administrative sweep (spec 4.1 WtrSM; not in the repository snapshot):
whether the port is currently marked non-revertive and whether its link is
still down. -/
structure NrPort where
  nonRevertive : Bool
  down : Bool
deriving DecidableEq

/-- Modelled from the spec: the administrative sweep triggers exactly when
every AggPort on the Aggregator has become non-revertive. -/
def sweepTriggered (ports : List NrPort) : Bool :=
  ports.all (fun p => p.nonRevertive)

/-- Modelled from the spec: the administrative sweep resets every port to
revertive except those whose link is still down, which are set non-revertive
again; when not triggered, nothing changes. -/
def sweep (ports : List NrPort) : List NrPort :=
  if sweepTriggered ports then
    ports.map (fun p => { nonRevertive := p.down, down := p.down })
  else ports

/-- Modelled from the spec: in non-revertive mode a restored port stays out
of the aggregation (never sync, collecting or distributing) until the sweep
returns it to revertive. -/
def nrMayRejoin (p : NrPort) : Bool := !p.nonRevertive && !p.down

/-- Port attributes consulted by the Selection Logic target choice (spec
4.2; the Selection Logic is not in the repository snapshot). -/
structure SelPort where
  portId : Nat
  preferredAgg : Nat
deriving DecidableEq

/-- Lowest-portId member of a group of AggPorts. -/
def lowestPort : List SelPort → Option SelPort
  | [] => none
  | p :: ps =>
    match lowestPort ps with
    | none => some p
    | some q => some (if p.portId ≤ q.portId then p else q)

/-- Modelled from the spec: the strict target-Aggregator priority of the
Selection Logic (spec 4.2 step 2): (a) the Aggregator currently holding any
port of the group; (b) the preferred Aggregator of the lowest-portId port in
the group, when available to this group (free, or holding only
lower-priority groups, summarized by the availability oracle); (c) the
lowest-indexed Aggregator whose adminKey matches the group and that is not
holding another LAG. -/
def selectTarget (holder : Option Nat) (group : List SelPort)
    (available : Nat → Bool) (keyMatching : List Nat) : Option Nat :=
  match holder with
  | some a => some a
  | none =>
    match lowestPort group with
    | none => none
    | some p =>
      if available p.preferredAgg then some p.preferredAgg
      else keyMatching.find? available

/-- The Bridge 1 member ports of the preferredAggregatorTest LAG once the
three links are connected, in order of arrival (drni.cpp lines 417-428):
partner ports 102 and 103 come up first, port 101 joins last; each port
prefers the Aggregator with its own index. -/
def b1LagGroup : List SelPort :=
  [{ portId := 0x102, preferredAgg := 0x202 },
   { portId := 0x103, preferredAgg := 0x203 },
   { portId := 0x101, preferredAgg := 0x201 }]

/-- Modelled from the spec: the identity (sysId, key) a DRNI system presents
to external LACP partners (spec 4.5 rules 1 and 3): the solo identity
derived from its own sysId and key while the IPP is down, the arbitrated
portal identity once the IPP is up (the admin portal sysId is zero, as
configured in main). -/
def reportedIdentity (homeSelf keySelf homePeer keyPeer : Nat) (ippUp : Bool) :
    Nat × Nat :=
  if ippUp then
    (portalSysId 0 homeSelf homePeer, portalKey homeSelf homePeer keySelf keyPeer)
  else (homeSelf, keySelf)

/-- Events of the drniPartner scenario relevant to the link between DRNI
System 1 and End Station 4 (drni.cpp lines 1873-1903 and spec scenario
S5). -/
inductive S5Event where
  | connectES4
  | connectIPP
  | disconnectES3
deriving DecidableEq

/-- State of the System 1 to End Station 4 LAG in the scenario model: IPP
status, the identity of System 1 recorded by End Station 4 (if any), whether
the partner is currently restricted, and whether the LAG is up. -/
structure S5State where
  ippUp : Bool
  recorded : Option (Nat × Nat)
  restricted : Bool
  lagUp : Bool
deriving DecidableEq

/-- Modelled from the spec: event-level transition of scenario S5 for the
System 1 to End Station 4 link (the DRCP and Selection machines are not in
the repository snapshot; each rule renders one sentence of spec S5).
connectES4: the partner records System 1's currently reported identity and
the LAG forms.  connectIPP: when the reported identity changes, the LAG
drops and the partner becomes restricted by partner-sync; otherwise nothing
changes.  disconnectES3: another link forces Selection to re-run, the
partner relearns the current identity, the restriction clears, and the LAG
re-forms. -/
def s5Step (h0 k0 h1 k1 : Nat) (s : S5State) (e : S5Event) : S5State :=
  match e with
  | .connectES4 =>
    { s with recorded := some (reportedIdentity h1 k1 h0 k0 s.ippUp), lagUp := true }
  | .connectIPP =>
    let r := reportedIdentity h1 k1 h0 k0 true
    if s.recorded = some r then { s with ippUp := true }
    else { s with ippUp := true, restricted := true, lagUp := false }
  | .disconnectES3 =>
    { s with recorded := some (reportedIdentity h1 k1 h0 k0 s.ippUp),
             restricted := false, lagUp := true }

/-- Initial state of the drniPartner scenario: nothing connected. -/
def s5Init : S5State :=
  { ippUp := false, recorded := none, restricted := false, lagUp := false }

/-- Run of the scenario model over a list of events. -/
def s5RunEvents (h0 k0 h1 k1 : Nat) (events : List S5Event) : S5State :=
  events.foldl (s5Step h0 k0 h1 k1) s5Init

/-- Actor attributes of an AggPort relevant to LagId formation (spec 3). -/
structure PortCfg where
  sys : Nat
  key : Nat
  portId : Nat
  aggregable : Bool
deriving DecidableEq

/-- A point-to-point link between two AggPorts. -/
structure LinkEnds where
  a : PortCfg
  b : PortCfg
deriving DecidableEq

/-- LagId as grouped by Selection (spec 3 and 4.2 step 4): system ids and
keys of the two ends plus, for individual links, the synthesized
port-specific component. -/
structure LagIdRec where
  actorSys : Nat
  actorKey : Nat
  partnerSys : Nat
  partnerKey : Nat
  indivPorts : Option (Nat × Nat)
deriving DecidableEq

/-- Modelled from the spec: LagId of the a-side AggPort of a link (spec 4.2
step 4; the Selection Logic is not in the repository snapshot).  A link is
individual when either end has its aggregation bit clear (the partner's bit
travels in the LACPDU state byte), and an individual link synthesizes the
port ids into its LagId so that it stands alone.  That the partner's clear
bit also isolates the link is forced by the expected outcome recorded at
drni.cpp lines 617-627, where link 4 (aggregatable actor, individual
partner) stays solitary. -/
def lagIdOf (l : LinkEnds) : LagIdRec :=
  { actorSys := l.a.sys, actorKey := l.a.key,
    partnerSys := l.b.sys, partnerKey := l.b.key,
    indivPorts := if l.a.aggregable && l.b.aggregable then none
                  else some (l.a.portId, l.b.portId) }

/-- Link 2 of nonAggregatablePortTest (drni.cpp line 615): B0.mac1, whose
aggregation bit was cleared at line 601, to B1.mac2. -/
def linkM1 : LinkEnds :=
  { a := { sys := 0, key := 1, portId := 0x101, aggregable := false },
    b := { sys := 1, key := 1, portId := 0x102, aggregable := true } }

/-- Link 3 of nonAggregatablePortTest (drni.cpp line 616): B0.mac2 to
B1.mac3, both fully aggregatable. -/
def linkM2 : LinkEnds :=
  { a := { sys := 0, key := 1, portId := 0x102, aggregable := true },
    b := { sys := 1, key := 1, portId := 0x103, aggregable := true } }

/-- Link 4 of nonAggregatablePortTest (drni.cpp line 617): B0.mac3 to
B1.mac1, whose aggregation bit was cleared at line 603. -/
def linkM3 : LinkEnds :=
  { a := { sys := 0, key := 1, portId := 0x103, aggregable := true },
    b := { sys := 1, key := 1, portId := 0x101, aggregable := false } }

/-- Link 5 of nonAggregatablePortTest (drni.cpp line 622): B0.mac4, whose
aggregation bit was cleared at line 605, to B1.mac0. -/
def linkM4 : LinkEnds :=
  { a := { sys := 0, key := 1, portId := 0x104, aggregable := false },
    b := { sys := 1, key := 1, portId := 0x100, aggregable := true } }

/-- Link 6 of nonAggregatablePortTest (drni.cpp line 626): B0.mac5 to
B1.mac5, both fully aggregatable. -/
def linkM5 : LinkEnds :=
  { a := { sys := 0, key := 1, portId := 0x105, aggregable := true },
    b := { sys := 1, key := 1, portId := 0x105, aggregable := true } }

/-- The five links connected by nonAggregatablePortTest (drni.cpp lines
613-630). -/
def nonAggTestLinks : List LinkEnds := [linkM1, linkM2, linkM3, linkM4, linkM5]

theorem listMerge_perm (xs ys : List Nat) : List.Perm (listMerge xs ys) (xs ++ ys) := by
  induction xs, ys using listMerge.induct with
  | case1 ys => simp [listMerge]
  | case2 x xs => simp [listMerge]
  | case3 x xs y ys h ih =>
    rw [listMerge, if_pos h]
    exact (ih.cons y).trans List.perm_middle.symm
  | case4 x xs y ys h ih =>
    rw [listMerge, if_neg h]
    exact ih.cons x

theorem listMerge_count (xs ys : List Nat) (v : Nat) :
    (listMerge xs ys).count v = xs.count v + ys.count v := by
  rw [(listMerge_perm xs ys).count_eq, List.count_append]

theorem listMerge_sorted (xs ys : List Nat) :
    xs.Sorted (· ≤ ·) → ys.Sorted (· ≤ ·) → (listMerge xs ys).Sorted (· ≤ ·) := by
  induction xs, ys using listMerge.induct with
  | case1 ys => intro _ hy; simpa [listMerge] using hy
  | case2 x xs => intro hx _; simpa [listMerge] using hx
  | case3 x xs y ys h ih =>
    intro hx hy
    rw [listMerge, if_pos h, List.sorted_cons]
    refine ⟨?_, ih hx (List.sorted_cons.mp hy).2⟩
    intro b hb
    rw [(listMerge_perm _ _).mem_iff] at hb
    rcases List.mem_append.mp hb with hb | hb
    · rcases List.mem_cons.mp hb with rfl | hb
      · exact le_of_lt h
      · exact le_trans (le_of_lt h) ((List.sorted_cons.mp hx).1 b hb)
    · exact (List.sorted_cons.mp hy).1 b hb
  | case4 x xs y ys h ih =>
    intro hx hy
    rw [listMerge, if_neg h, List.sorted_cons]
    refine ⟨?_, ih (List.sorted_cons.mp hx).2 hy⟩
    intro b hb
    rw [(listMerge_perm _ _).mem_iff] at hb
    rcases List.mem_append.mp hb with hb | hb
    · exact (List.sorted_cons.mp hx).1 b hb
    · rcases List.mem_cons.mp hb with rfl | hb
      · exact le_of_not_lt h
      · exact le_trans (le_of_not_lt h) ((List.sorted_cons.mp hy).1 b hb)

theorem cmpLoop_mem (as bs : List Nat) (c : Nat) :
    c ∈ (cmpLoop as bs).1 ∨ c ∈ (cmpLoop as bs).2.1 ∨ c ∈ (cmpLoop as bs).2.2 →
    c ∈ as ∨ c ∈ bs := by
  induction as, bs using cmpLoop.induct with
  | case1 bs => simp [cmpLoop]
  | case2 a as => simp [cmpLoop]
  | case3 as b bs ih =>
    simp only [cmpLoop, if_pos rfl]
    intro hc
    rcases ih hc with hc | hc
    · exact Or.inl (List.mem_cons_of_mem b hc)
    · exact Or.inr (List.mem_cons_of_mem b hc)
  | case4 a as b bs h1 h2 ih =>
    simp only [cmpLoop, if_neg h1, if_pos h2]
    intro hc
    rcases hc with hc | hc
    · rcases List.mem_cons.mp hc with rfl | hc
      · exact Or.inl (List.mem_cons_self c as)
      · rcases ih (Or.inl hc) with hd | hd
        · exact Or.inl (List.mem_cons_of_mem a hd)
        · exact Or.inr hd
    · rcases ih (Or.inr hc) with hd | hd
      · exact Or.inl (List.mem_cons_of_mem a hd)
      · exact Or.inr hd
  | case5 a as b bs h1 h2 ih =>
    simp only [cmpLoop, if_neg h1, if_neg h2]
    intro hc
    rcases hc with hc | hc
    · rcases List.mem_cons.mp hc with rfl | hc
      · exact Or.inr (List.mem_cons_self c bs)
      · rcases ih (Or.inl hc) with hd | hd
        · exact Or.inl hd
        · exact Or.inr (List.mem_cons_of_mem b hd)
    · rcases ih (Or.inr hc) with hd | hd
      · exact Or.inl hd
      · exact Or.inr (List.mem_cons_of_mem b hd)

theorem cmpLoop_sorted (as bs : List Nat) :
    as.Sorted (· ≤ ·) → bs.Sorted (· ≤ ·) →
    (cmpLoop as bs).1.Sorted (· ≤ ·) ∧ (cmpLoop as bs).2.1.Sorted (· ≤ ·) ∧
      (cmpLoop as bs).2.2.Sorted (· ≤ ·) := by
  induction as, bs using cmpLoop.induct with
  | case1 bs => intro _ hy; simpa [cmpLoop] using hy
  | case2 a as => intro hx _; simpa [cmpLoop] using hx
  | case3 as b bs ih =>
    intro hx hy
    simp only [cmpLoop, if_pos rfl]
    exact ih (List.sorted_cons.mp hx).2 (List.sorted_cons.mp hy).2
  | case4 a as b bs h1 h2 ih =>
    intro hx hy
    obtain ⟨hd, hra, hrb⟩ := ih (List.sorted_cons.mp hx).2 hy
    simp only [cmpLoop, if_neg h1, if_pos h2]
    refine ⟨?_, hra, hrb⟩
    rw [List.sorted_cons]
    refine ⟨?_, hd⟩
    intro c hc
    rcases cmpLoop_mem as (b :: bs) c (Or.inl hc) with hm | hm
    · exact (List.sorted_cons.mp hx).1 c hm
    · rcases List.mem_cons.mp hm with rfl | hm
      · exact le_of_lt h2
      · exact le_trans (le_of_lt h2) ((List.sorted_cons.mp hy).1 c hm)
  | case5 a as b bs h1 h2 ih =>
    intro hx hy
    obtain ⟨hd, hra, hrb⟩ := ih hx (List.sorted_cons.mp hy).2
    simp only [cmpLoop, if_neg h1, if_neg h2]
    refine ⟨?_, hra, hrb⟩
    rw [List.sorted_cons]
    refine ⟨?_, hd⟩
    have hba : b < a := by omega
    intro c hc
    rcases cmpLoop_mem (a :: as) bs c (Or.inl hc) with hm | hm
    · rcases List.mem_cons.mp hm with rfl | hm
      · exact le_of_lt hba
      · exact le_trans (le_of_lt hba) ((List.sorted_cons.mp hx).1 c hm)
    · exact (List.sorted_cons.mp hy).1 c hm

theorem count_eq_zero_of_lt_head (a b : Nat) (bs : List Nat)
    (hs : (b :: bs).Sorted (· ≤ ·)) (h : a < b) : (b :: bs).count a = 0 := by
  rw [List.count_eq_zero]
  intro hmem
  rcases List.mem_cons.mp hmem with rfl | hmem
  · exact lt_irrefl a h
  · have := (List.sorted_cons.mp hs).1 a hmem
    omega

theorem cmpLoop_count (as bs : List Nat) :
    as.Sorted (· ≤ ·) → bs.Sorted (· ≤ ·) → ∀ v,
    (cmpLoop as bs).1.count v + (cmpLoop as bs).2.1.count v + (cmpLoop as bs).2.2.count v =
      countDiff (as.count v) (bs.count v) := by
  induction as, bs using cmpLoop.induct with
  | case1 bs =>
    intro _ _ v
    simp [cmpLoop, countDiff]
  | case2 a as =>
    intro _ _ v
    simp [cmpLoop, countDiff]
  | case3 as b bs ih =>
    intro hx hy v
    have ih' := ih (List.sorted_cons.mp hx).2 (List.sorted_cons.mp hy).2 v
    simp only [cmpLoop, eq_self_iff_true, if_true]
    rcases eq_or_ne v b with rfl | hne
    · rw [List.count_cons_self, List.count_cons_self]
      unfold countDiff at ih' ⊢
      omega
    · rw [List.count_cons_of_ne hne, List.count_cons_of_ne hne]
      exact ih'
  | case4 a as b bs h1 h2 ih =>
    intro hx hy v
    have ih' := ih (List.sorted_cons.mp hx).2 hy v
    have hz : (b :: bs).count a = 0 := count_eq_zero_of_lt_head a b bs hy h2
    simp only [cmpLoop, if_neg h1, if_pos h2]
    rcases eq_or_ne v a with rfl | hne
    · rw [List.count_cons_self, List.count_cons_self]
      rw [hz] at ih' ⊢
      unfold countDiff at ih' ⊢
      omega
    · rw [List.count_cons_of_ne hne, List.count_cons_of_ne hne]
      exact ih'
  | case5 a as b bs h1 h2 ih =>
    intro hx hy v
    have ih' := ih hx (List.sorted_cons.mp hy).2 v
    have hba : b < a := by omega
    have hz : (a :: as).count b = 0 := count_eq_zero_of_lt_head b a as hx hba
    simp only [cmpLoop, if_neg h1, if_neg h2]
    rcases eq_or_ne v b with rfl | hne
    · rw [List.count_cons_self, List.count_cons_self]
      rw [hz] at ih' ⊢
      unfold countDiff at ih' ⊢
      omega
    · rw [List.count_cons_of_ne hne, List.count_cons_of_ne hne]
      exact ih'

theorem sortList_sorted (l : List Nat) : (sortList l).Sorted (· ≤ ·) :=
  List.sorted_insertionSort (· ≤ ·) l

theorem sortList_count (l : List Nat) (v : Nat) : (sortList l).count v = l.count v :=
  (List.perm_insertionSort (· ≤ ·) l).count_eq v

theorem compareLists_sorted (A B : List Nat) : (compareLists A B).Sorted (· ≤ ·) := by
  obtain ⟨hd, hra, hrb⟩ :=
    cmpLoop_sorted (sortList A) (sortList B) (sortList_sorted A) (sortList_sorted B)
  exact listMerge_sorted _ _ (listMerge_sorted _ _ hd hra) hrb

theorem compareLists_count (A B : List Nat) (v : Nat) :
    (compareLists A B).count v = countDiff (A.count v) (B.count v) := by
  have h := cmpLoop_count (sortList A) (sortList B) (sortList_sorted A) (sortList_sorted B) v
  rw [sortList_count, sortList_count] at h
  unfold compareLists
  rw [listMerge_count, listMerge_count]
  omega

theorem runPhaseTrace_pair_sublist (i n : Nat) (h : i < n) :
    List.Sublist [DriverEvent.timerTick i, DriverEvent.run i true] (runPhaseTrace n) := by
  induction n with
  | zero => omega
  | succ n ih =>
    rcases Nat.lt_succ_iff_lt_or_eq.mp h with h | rfl
    · exact (ih h).trans (List.sublist_append_left _ _)
    · exact List.sublist_append_right _ _

theorem runPhaseTrace_mem_run (i n : Nat) (h : i < n) :
    DriverEvent.run i true ∈ runPhaseTrace n := by
  induction n with
  | zero => omega
  | succ n ih =>
    rw [runPhaseTrace, List.mem_append]
    rcases Nat.lt_succ_iff_lt_or_eq.mp h with h | rfl
    · exact Or.inl (ih h)
    · simp

theorem transmitPhaseTrace_mem (j n : Nat) (h : j < n) :
    DriverEvent.transmit j ∈ transmitPhaseTrace n := by
  induction n with
  | zero => omega
  | succ n ih =>
    rw [transmitPhaseTrace, List.mem_append]
    rcases Nat.lt_succ_iff_lt_or_eq.mp h with h | rfl
    · exact Or.inl (ih h)
    · simp

theorem timeIncrement_not_mem_runPhase (n : Nat) :
    DriverEvent.timeIncrement ∉ runPhaseTrace n := by
  induction n with
  | zero => simp [runPhaseTrace]
  | succ n ih => simp [runPhaseTrace, ih]

theorem timeIncrement_not_mem_transmitPhase (n : Nat) :
    DriverEvent.timeIncrement ∉ transmitPhaseTrace n := by
  induction n with
  | zero => simp [transmitPhaseTrace]
  | succ n ih => simp [transmitPhaseTrace, ih]

/-- Claim C10: compareLists returns the multiset symmetric difference of its
two argument lists in non-decreasing order — each value v occurs exactly the
absolute difference of its occurrence counts in A and B times — hence the
result is empty iff A and B are equal as multisets, and the result does not
depend on the argument order; as a pure function of the argument values it
matches the by-value C++ signature, which leaves the caller's lists
unmodified. -/
theorem C10_compareLists_symmetric_difference (A B : List Nat) :
    (compareLists A B).Sorted (· ≤ ·)
    ∧ (∀ v, (compareLists A B).count v = countDiff (A.count v) (B.count v))
    ∧ (compareLists A B = [] ↔ ∀ v, A.count v = B.count v)
    ∧ compareLists A B = compareLists B A := by
  refine ⟨compareLists_sorted A B, compareLists_count A B, ⟨?_, ?_⟩, ?_⟩
  · intro h v
    have hc := compareLists_count A B v
    rw [h, List.count_nil] at hc
    unfold countDiff at hc
    omega
  · intro h
    rw [List.eq_nil_iff_forall_not_mem]
    intro v hv
    have hc := compareLists_count A B v
    rw [h v] at hc
    have hz : (compareLists A B).count v = 0 := by
      unfold countDiff at hc
      omega
    exact List.count_eq_zero.mp hz hv
  · have hperm : List.Perm (compareLists A B) (compareLists B A) := by
      rw [List.perm_iff_count]
      intro v
      rw [compareLists_count A B v, compareLists_count B A v]
      unfold countDiff
      omega
    exact List.eq_of_perm_of_sorted hperm (compareLists_sorted A B) (compareLists_sorted B A)

/-- Witness for claim C10 at concrete lists. -/
theorem C10_compareLists_witness :
    compareLists [1, 2, 3, 10] [1, 2, 2, 5, 10, 11] =
      compareLists [1, 2, 2, 5, 10, 11] [1, 2, 3, 10] :=
  (C10_compareLists_symmetric_difference [1, 2, 3, 10] [1, 2, 2, 5, 10, 11]).2.2.2

/-- Claim C9: on every global tick the driver processes each device in a
fixed order, calling timerTick before run true on that device, finishes both
calls on all devices before calling transmit on any device, and increments
SimLog Time exactly once, at the end of the iteration; consequently each
device state advances by transmit after run true after timerTick. -/
theorem C9_driver_tick_order {σ : Type} (ops : DriverOps σ) (devs : List σ)
    (time n i j : Nat) (hi : i < n) (hj : j < n) :
    List.Sublist [DriverEvent.timerTick i, DriverEvent.run i true] (driverTickTrace n)
    ∧ List.Sublist [DriverEvent.run j true, DriverEvent.transmit i] (driverTickTrace n)
    ∧ (driverTickTrace n).getLast? = some DriverEvent.timeIncrement
    ∧ (driverTickTrace n).count DriverEvent.timeIncrement = 1
    ∧ (driverTick ops devs time).2 = time + 1
    ∧ (driverTick ops devs time).1 =
        devs.map (fun d => ops.transmit (ops.run true (ops.timerTick d))) := by
  refine ⟨?_, ?_, ?_, ?_, rfl, ?_⟩
  · exact (runPhaseTrace_pair_sublist i n hi).trans
      ((List.sublist_append_left _ _).trans (List.sublist_append_left _ _))
  · have h1 : List.Sublist [DriverEvent.run j true] (runPhaseTrace n) :=
      List.singleton_sublist.mpr (runPhaseTrace_mem_run j n hj)
    have h2 : List.Sublist [DriverEvent.transmit i] (transmitPhaseTrace n) :=
      List.singleton_sublist.mpr (transmitPhaseTrace_mem i n hi)
    exact (h1.append h2).trans (List.sublist_append_left _ _)
  · rw [driverTickTrace]
    exact List.getLast?_concat _
  · rw [driverTickTrace, List.count_append, List.count_append,
      List.count_eq_zero.mpr (timeIncrement_not_mem_runPhase n),
      List.count_eq_zero.mpr (timeIncrement_not_mem_transmitPhase n)]
    simp
  · simp [driverTick, List.map_map, Function.comp]

/-- Witness for claim C9 at the six devices of the simulation. -/
theorem C9_driver_tick_witness :
    (driverTickTrace 6).count DriverEvent.timeIncrement = 1 :=
  (C9_driver_tick_order { timerTick := id, run := fun _ => id, transmit := id }
    ([] : List Unit) 0 6 0 5 (by decide) (by decide)).2.2.2.1

/-- Claim C1 counterexample: the DEFAULT conversation-to-link spread of the
spec applied over the link-number set (4, 5, 6) does not map the nine
send9Frames frames (conversation ids 0,0,1,...,7 under C_VID) to the claimed
link-number sequence (6, 6, 6, 5, 6, 5, 5, 6, 5): conversation id 0 goes to
the lowest link number 4, not 6. -/
theorem C1_default_spread_counterexample :
    send9FramesConvIds.map (defaultSpread [4, 5, 6]) ≠ claimedB0toB2Links := by
  decide

/-- Claim C1 amended: the nine send9Frames frames carry conversation ids
0,0,1,...,7 under the C_VID port algorithm, and the DEFAULT spread over the
link-number set (4, 5, 6) maps them to link numbers
(4, 4, 5, 6, 4, 5, 6, 4, 5). -/
theorem C1_default_spread_sequence :
    send9FramesConvIds = [0, 0, 1, 2, 3, 4, 5, 6, 7]
    ∧ send9FramesConvIds.map (defaultSpread [4, 5, 6]) = [4, 4, 5, 6, 4, 5, 6, 4, 5] := by
  decide

/-- Claim C2: with the admin portal sysId zero (as set in main), main hands
each DR its preferred Aggregator's admin key, both DR instances agree on the
portal identity, which is the numerically lower of the two home sysIds, and
both settle the portal key to the key of the lowest-sysId system; with a
non-zero admin portal sysId (non-zero address part), that sysId and the
explicit defaultDrniKey are used instead. -/
theorem C2_portal_identity_arbitration (dak ddk h0 h1 idx : Nat) :
    adminDrniKeyChoice ddk 0 (drniAggKey dak 0 idx) = drniAggKey dak 0 idx
    ∧ portalSysId 0 h0 h1 = min h0 h1
    ∧ portalSysId 0 h0 h1 = portalSysId 0 h1 h0
    ∧ (h0 < h1 →
        portalKey h0 h1 (adminDrniKeyChoice ddk 0 (drniAggKey dak 0 idx))
            (adminDrniKeyChoice ddk 0 (drniAggKey dak 1 idx)) = drniAggKey dak 0 idx
        ∧ portalKey h1 h0 (adminDrniKeyChoice ddk 0 (drniAggKey dak 1 idx))
            (adminDrniKeyChoice ddk 0 (drniAggKey dak 0 idx)) = drniAggKey dak 0 idx)
    ∧ (∀ a addr, a ≠ 0 → addr ≠ 0 →
        portalSysId a h0 h1 = a
        ∧ adminDrniKeyChoice ddk addr (drniAggKey dak 0 idx) = ddk) := by
  refine ⟨rfl, rfl, ?_, ?_, ?_⟩
  · simp [portalSysId, Nat.min_comm]
  · intro h
    constructor
    · rw [portalKey, if_pos (Nat.le_of_lt h)]
      exact rfl
    · rw [portalKey, if_neg (Nat.not_le.mpr h)]
      exact rfl
  · intro a addr ha haddr
    exact ⟨by simp [portalSysId, ha], by simp [adminDrniKeyChoice, haddr]⟩

/-- Witness for claim C2 at concrete sysIds and keys. -/
theorem C2_portal_identity_witness :
    portalKey 5 9 (adminDrniKeyChoice 99 0 (drniAggKey 0x0E00 0 4))
        (adminDrniKeyChoice 99 0 (drniAggKey 0x0E00 1 4)) = drniAggKey 0x0E00 0 4 :=
  ((C2_portal_identity_arbitration 0x0E00 99 5 9 4).2.2.2.1 (by decide)).1

/-- Claim C3: whenever an AggPort attached to a Distributed Relay is
evaluated with Selection UNSELECTED in any state other than DETACHED, a
transition occurs and NTT is set — on every UNSELECTED transition, not only
on transitions touching ATTACHED — and a second UNSELECTED evaluation lands
in DETACHED; this is the NTT discipline the drniPartnerTest re-home sequence
relies on so that the partner learns the new portal sysId and key at
start+800 instead of nothing happening at start+900. -/
theorem C3_ntt_on_unselected (s : MuxState) (inp : MuxInput)
    (hsel : inp.selected = false) (hs : s ≠ MuxState.Detached) :
    muxNtt s inp = true ∧ muxStep (muxStep s inp) inp = MuxState.Detached := by
  cases s <;> simp_all [muxStep, muxNtt]

/-- Witness for claim C3 at the COLLECTING_DISTRIBUTING state. -/
theorem C3_ntt_witness :
    muxNtt MuxState.CollDist
      { selected := false, waitWhileExpired := false, partnerSync := true } = true :=
  (C3_ntt_on_unselected MuxState.CollDist
    { selected := false, waitWhileExpired := false, partnerSync := true }
    rfl (by decide)).1

/-- Claim C4: with WTR 30 on the Bridge 0 AggPorts, link 2 (down at
start+100, up at +115) is not eligible to rejoin before +145 and rejoins at
+155 (reconnect plus WTR plus one LACPDU round trip over the 5-tick-delay
link); link 3, additionally down at +120 and up at +125, has its WTR
hold-off restarted, is not eligible before +155 and rejoins at +165. -/
theorem C4_wait_to_restore_times :
    wtrRejoinAfter 30 link2WtrEvents 100 10 100 = some 155
    ∧ wtrRejoinAfter 30 link3WtrEvents 100 10 100 = some 165
    ∧ (∀ t, t < 145 → 100 ≤ t → wtrEligible 30 link2WtrEvents t = false)
    ∧ (∀ t, t < 155 → 100 ≤ t → wtrEligible 30 link3WtrEvents t = false) := by
  decide

/-- Witness for claim C4 at tick 120. -/
theorem C4_wait_to_restore_witness : wtrEligible 30 link2WtrEvents 120 = false :=
  C4_wait_to_restore_times.2.2.1 120 (by decide) (by decide)

/-- Claim C5: the non-revertive administrative sweep triggers exactly when
every AggPort on the Aggregator has become non-revertive; it then resets
every port to revertive except those whose link is still down, which are set
non-revertive again; a non-revertive port may not rejoin its LAG; and in the
waitToRestoreTest non-revertive phase (links 2 and 3 restored at +615, link
1 down at +630 making all three non-revertive) the sweep leaves links 2 and
3 revertive — each rejoins at +655 — while link 1, still down at sweep time,
is set non-revertive again and stays inactive after its reconnection at
+650. -/
theorem C5_non_revertive_sweep :
    (∀ ports : List NrPort, sweepTriggered ports = true ↔ ∀ p ∈ ports, p.nonRevertive = true)
    ∧ (∀ ports : List NrPort, sweepTriggered ports = true →
        sweep ports = ports.map (fun p => { nonRevertive := p.down, down := p.down }))
    ∧ (∀ ports : List NrPort, sweepTriggered ports = false → sweep ports = ports)
    ∧ (∀ p : NrPort, p.nonRevertive = true → nrMayRejoin p = false)
    ∧ sweep [{ nonRevertive := true, down := false }, { nonRevertive := true, down := false },
        { nonRevertive := true, down := true }] =
      [{ nonRevertive := false, down := false }, { nonRevertive := false, down := false },
        { nonRevertive := true, down := true }]
    ∧ wtrRejoinAfter 30 link2NrEvents 615 10 100 = some 655 := by
  refine ⟨?_, ?_, ?_, ?_, by decide, by decide⟩
  · intro ports
    simp [sweepTriggered, List.all_eq_true]
  · intro ports h
    simp [sweep, h]
  · intro ports h
    simp [sweep, h]
  · intro p h
    simp [nrMayRejoin, h]

/-- Witness for claim C5 at a non-revertive port with its link restored. -/
theorem C5_non_revertive_witness :
    nrMayRejoin { nonRevertive := true, down := false } = false :=
  C5_non_revertive_sweep.2.2.2.1 { nonRevertive := true, down := false } rfl

/-- Claim C6: the Selection target-Aggregator priority is strict — an
Aggregator currently holding a port of the group wins outright, else the
preferred Aggregator of the lowest-portId port of the group when available —
and in the preferredAggregator scenario the Bridge 1 group, re-seated after
eviction with no current holder, targets Aggregator 0x201, the preferred
Aggregator of the lowest partner port 0x101, and not Aggregator 0x202 where
the first two links initially landed. -/
theorem C6_preferred_aggregator_selection :
    (∀ (a : Nat) (group : List SelPort) (avail : Nat → Bool) (keyM : List Nat),
        selectTarget (some a) group avail keyM = some a)
    ∧ (∀ (group : List SelPort) (avail : Nat → Bool) (keyM : List Nat) (p : SelPort),
        lowestPort group = some p → avail p.preferredAgg = true →
        selectTarget none group avail keyM = some p.preferredAgg)
    ∧ lowestPort b1LagGroup = some { portId := 0x101, preferredAgg := 0x201 }
    ∧ selectTarget none b1LagGroup (fun _ => true) [] = some 0x201
    ∧ (0x201 : Nat) ≠ 0x202 := by
  refine ⟨fun a group avail keyM => rfl, ?_, by decide, ?_, by decide⟩
  · intro group avail keyM p hp ha
    simp [selectTarget, hp, ha]
  · simp [selectTarget, lowestPort, b1LagGroup]

/-- Witness for claim C6 at the Bridge 1 group of the scenario. -/
theorem C6_selection_witness :
    selectTarget none b1LagGroup (fun _ => true) [] = some (0x201 : Nat) :=
  C6_preferred_aggregator_selection.2.1 b1LagGroup (fun _ => true) []
    { portId := 0x101, preferredAgg := 0x201 } (by decide) rfl

/-- Claim C7: with home sysIds h0 < h1 and admin portal sysId zero, DRNI
System 1 reports its solo identity while the IPP is down, so End Station 4
connected at +10 brings the LAG up solo to System 1 alone; connecting the
IPP at +200 changes the reported sysId and key to the portal values (the
lower home sysId h0 and its key), which differ from the solo identity, so
the LAG to End Station 4 drops and the partner is restricted; the LAG does
not come back until End Station 3's link to System 0 is disconnected at
+300, which frees Selection to re-run and brings it back up. -/
theorem C7_drni_partner_rehome (h0 k0 h1 k1 : Nat) (hlt : h0 < h1) :
    reportedIdentity h1 k1 h0 k0 false = (h1, k1)
    ∧ (s5RunEvents h0 k0 h1 k1 [S5Event.connectES4]).lagUp = true
    ∧ (s5RunEvents h0 k0 h1 k1 [S5Event.connectES4]).recorded = some (h1, k1)
    ∧ reportedIdentity h1 k1 h0 k0 true = (h0, k0)
    ∧ ((h1 : Nat), k1) ≠ ((h0 : Nat), k0)
    ∧ (s5RunEvents h0 k0 h1 k1 [S5Event.connectES4, S5Event.connectIPP]).lagUp = false
    ∧ (s5RunEvents h0 k0 h1 k1 [S5Event.connectES4, S5Event.connectIPP]).restricted = true
    ∧ (s5RunEvents h0 k0 h1 k1
        [S5Event.connectES4, S5Event.connectIPP, S5Event.disconnectES3]).lagUp = true := by
  have hne : ¬ h1 ≤ h0 := Nat.not_le.mpr hlt
  have hr : reportedIdentity h1 k1 h0 k0 true = (h0, k0) := by
    rw [reportedIdentity, if_pos rfl, portalKey, if_neg hne]
    simp [portalSysId, Nat.min_eq_right (Nat.le_of_lt hlt)]
  have hsolo : reportedIdentity h1 k1 h0 k0 false = (h1, k1) := rfl
  have hpair : ((h1 : Nat), k1) ≠ ((h0 : Nat), k0) := by
    intro hc
    rw [Prod.mk.injEq] at hc
    omega
  have hrecne : some ((h1 : Nat), k1) ≠ some ((h0 : Nat), k0) := by
    intro hc
    exact hpair (Option.some_inj.mp hc)
  have h1s : s5RunEvents h0 k0 h1 k1 [S5Event.connectES4] =
      { ippUp := false, recorded := some (h1, k1), restricted := false, lagUp := true } := by
    simp [s5RunEvents, s5Step, s5Init, hsolo]
  have h2s : s5RunEvents h0 k0 h1 k1 [S5Event.connectES4, S5Event.connectIPP] =
      { ippUp := true, recorded := some (h1, k1), restricted := true, lagUp := false } := by
    simp [s5RunEvents, s5Step, s5Init, hsolo, hr, hrecne]
  have hsplit : s5RunEvents h0 k0 h1 k1
      [S5Event.connectES4, S5Event.connectIPP, S5Event.disconnectES3] =
      s5Step h0 k0 h1 k1
        (s5RunEvents h0 k0 h1 k1 [S5Event.connectES4, S5Event.connectIPP])
        S5Event.disconnectES3 := rfl
  refine ⟨hsolo, by rw [h1s], by rw [h1s], hr, hpair, by rw [h2s], by rw [h2s], ?_⟩
  rw [hsplit, h2s]
  exact rfl

/-- Witness for claim C7 at concrete home identities. -/
theorem C7_drni_partner_witness :
    (s5RunEvents 5 100 9 200 [S5Event.connectES4, S5Event.connectIPP]).lagUp = false :=
  (C7_drni_partner_rehome 5 100 9 200 (by decide)).2.2.2.2.2.1

/-- Claim C8: an AggPort whose aggregation bit is clear never shares an
Aggregator with another AggPort — its link's LagId synthesizes the port ids,
so no link of a different port (port ids are unique within a system) can
match it — and in the nonAggregatable scenario the five connected links form
four distinct LAGs in which only the fully aggregatable pair B0.mac2 and
B0.mac5 aggregates together with their partners. -/
theorem C8_non_aggregatable_solitary :
    (∀ l1 l2 : LinkEnds, l1.a.aggregable = false → l1.a.portId ≠ l2.a.portId →
      lagIdOf l1 ≠ lagIdOf l2)
    ∧ (nonAggTestLinks.map lagIdOf).dedup.length = 4
    ∧ lagIdOf linkM2 = lagIdOf linkM5
    ∧ (nonAggTestLinks.map lagIdOf).count (lagIdOf linkM2) = 2
    ∧ (nonAggTestLinks.map lagIdOf).count (lagIdOf linkM1) = 1
    ∧ (nonAggTestLinks.map lagIdOf).count (lagIdOf linkM3) = 1
    ∧ (nonAggTestLinks.map lagIdOf).count (lagIdOf linkM4) = 1 := by
  refine ⟨?_, by decide, by decide, by decide, by decide, by decide, by decide⟩
  intro l1 l2 h1 h2 hEq
  have hcond : ¬ ((l1.a.aggregable && l1.b.aggregable) = true) := by
    rw [h1]
    simp
  have h := congrArg LagIdRec.indivPorts hEq
  simp only [lagIdOf] at h
  rw [if_neg hcond] at h
  by_cases hc : (l2.a.aggregable && l2.b.aggregable) = true
  · rw [if_pos hc] at h
    exact Option.noConfusion h
  · rw [if_neg hc] at h
    rw [Option.some.injEq, Prod.mk.injEq] at h
    exact h2 h.1

/-- Witness for claim C8 at two links of the scenario. -/
theorem C8_non_aggregatable_witness : lagIdOf linkM1 ≠ lagIdOf linkM2 :=
  C8_non_aggregatable_solitary.1 linkM1 linkM2 rfl (by decide)

end Drni
